import Mathlib

/-!
# Verification of the election scraper (src/main.py)

This file gives a shallow embedding of the extraction-and-aggregation
pipeline of `src/main.py` and proves the specification claims about it.

The document-parsing library (BeautifulSoup) and the network transport are
external collaborators; a parsed HTML document is modelled as a tree of
nodes whose multi-valued attributes (class, headers) are already split into
whitespace-free tokens, exactly the view `find_all` matches against.
-/

namespace ElectionScraper

/-- A parsed document node: either a text node, or an element with a tag,
attributes (attribute name mapped to its list of tokens) and children. -/
inductive Node where
  | textNode (s : String)
  | elem (tag : String) (attrs : List (String × List String)) (children : List Node)

/-- Whitespace characters, as recognised by the regular-expression class
used in the source (`\s`). -/
def isWsChar (c : Char) : Bool :=
  c = ' ' || c = '\t' || c = '\n' || c = '\r' || c = '\x0b' || c = '\x0c'

/-- Join attribute tokens with single spaces, as BeautifulSoup does when it
matches a pattern against a multi-valued attribute as one string. -/
def joinTokens : List String → List Char
  | [] => []
  | [t] => t.data
  | t :: ts => t.data ++ ' ' :: joinTokens ts

/-- Does the suffix start with the literal part `t[12]sb3` of the vote-cell
pattern? -/
def sb3Here : List Char → Bool
  | 't' :: d :: 's' :: 'b' :: '3' :: _ => d = '1' || d = '2'
  | _ => false

/-- One or more whitespace characters followed by `t[12]sb3`. -/
def wsThenSb3 : List Char → Bool
  | [] => false
  | c :: rest => isWsChar c && (sb3Here rest || wsThenSb3 rest)

/-- Does the suffix start with a full match of `t[12]sa2\s+t[12]sb3`? -/
def sa2Here : List Char → Bool
  | 't' :: d :: 's' :: 'a' :: '2' :: rest => (d = '1' || d = '2') && wsThenSb3 rest
  | _ => false

/-- Search (in the sense of `re.search`) for `t[12]sa2\s+t[12]sb3` anywhere
in the character sequence. -/
def voteRegexSearch : List Char → Bool
  | [] => false
  | c :: rest => sa2Here (c :: rest) || voteRegexSearch rest

mutual

/-- All the text contained in a node, document order, no separators
(BeautifulSoup `.text`). -/
def Node.text : Node → String
  | .textNode s => s
  | .elem _ _ cs => textOfList cs

/-- Concatenated text of a list of nodes. -/
def textOfList : List Node → String
  | [] => ""
  | n :: ns => n.text ++ textOfList ns

end

mutual

/-- All descendant elements of the nodes in the list satisfying `p`, in
document (preorder) order. -/
def findAllList (p : Node → Bool) : List Node → List Node
  | [] => []
  | n :: ns => findAllNode p n ++ findAllList p ns

/-- The node itself if it is an element satisfying `p`, followed by all its
matching descendants, document order. -/
def findAllNode (p : Node → Bool) : Node → List Node
  | .textNode _ => []
  | .elem t a cs =>
    (if p (.elem t a cs) then [Node.elem t a cs] else []) ++ findAllList p cs

end

/-- `find_all` on a parsed document: all matching descendants of the node,
in document order (the node itself is not a candidate, as in BeautifulSoup
where `soup.find_all` and `td.find_all` search descendants). -/
def Node.findAll (n : Node) (p : Node → Bool) : List Node :=
  match n with
  | .textNode _ => []
  | .elem _ _ cs => findAllList p cs

/-- Is the node an element with the given tag? -/
def Node.tagIs (n : Node) (t : String) : Bool :=
  match n with
  | .elem tg _ _ => tg == t
  | .textNode _ => false

/-- The token list of an attribute; empty when the attribute is absent. -/
def Node.attrTokens (n : Node) (a : String) : List String :=
  match n with
  | .elem _ attrs _ => ((attrs.find? (fun p => p.1 == a)).map (fun p => p.2)).getD []
  | .textNode _ => []

/-- The raw string value of an attribute (tokens joined by single spaces),
if the attribute is present; used for `a["href"]`. -/
def Node.hrefAttr (n : Node) : Option String :=
  match n with
  | .elem _ attrs _ =>
    ((attrs.find? (fun p => p.1 == "href")).map (fun p => String.mk (joinTokens p.2)))
  | .textNode _ => none

/-- BeautifulSoup matching of a string against a multi-valued attribute:
either some token equals it, or the space-joined value equals it. -/
def tokensMatchStr (toks : List String) (s : String) : Bool :=
  toks.any (fun t => t == s) || String.mk (joinTokens toks) == s

/-- `find_all("td", {"class": c})`: a `td` element whose `class` attribute
matches `c`. -/
def tdWithClass (c : String) (n : Node) : Bool :=
  n.tagIs "td" && tokensMatchStr (n.attrTokens "class") c

/-- `find_all("td", {"headers": h})` with a plain string `h`. -/
def tdWithHeaders (h : String) (n : Node) : Bool :=
  n.tagIs "td" && tokensMatchStr (n.attrTokens "headers") h

/-- Municipality-code cells: `td` with class `cislo`. -/
def isCodeCell (n : Node) : Bool := tdWithClass "cislo" n

/-- Name cells: `td` with class `overflow_name` (used both for municipality
names on the index page and for party names on a results page). -/
def isNameCell (n : Node) : Bool := tdWithClass "overflow_name" n

/-- Registered-voters counter cell: `td` with headers `sa2`. -/
def isRegisteredCell (n : Node) : Bool := tdWithHeaders "sa2" n

/-- Envelopes counter cell: `td` with headers `sa3`. -/
def isEnvelopesCell (n : Node) : Bool := tdWithHeaders "sa3" n

/-- Valid-votes counter cell: `td` with headers `sa6`. -/
def isValidVotesCell (n : Node) : Bool := tdWithHeaders "sa6" n

/-- Vote-count cells: `td` whose `headers` attribute matches the pattern
`t[12]sa2\s+t[12]sb3` (BeautifulSoup tries each token, then the joined
value). -/
def isVoteCell (n : Node) : Bool :=
  n.tagIs "td" &&
    (let toks := n.attrTokens "headers"
     toks.any (fun t => voteRegexSearch t.data) || voteRegexSearch (joinTokens toks))

/-- Anchor elements. -/
def isAnchor (n : Node) : Bool := n.tagIs "a"

/-- `h3` heading elements. -/
def isH3 (n : Node) : Bool := n.tagIs "h3"

end ElectionScraper

namespace ElectionScraper

/-- Lexicographic comparison of character sequences by code point, the
order Python `sorted` uses on strings.  Structural, so that the kernel can
evaluate it (the core `String.ltb` is not kernel-reducible). -/
def lexLe : List Char → List Char → Bool
  | [], _ => true
  | _ :: _, [] => false
  | a :: cs, b :: ds => if a < b then true else if b < a then false else lexLe cs ds

/-- Lexicographic order on strings, as a boolean function. -/
def strLeB (a b : String) : Bool := lexLe a.data b.data

/-- `lexLe` agrees with the (negated, flipped) inductive lexicographic
order on lists that underlies the order on `String`. -/
theorem lexLe_iff : ∀ cs ds : List Char, lexLe cs ds = true ↔ ¬ List.lt ds cs
  | [], ds => by
    simp only [lexLe]
    exact iff_of_true trivial (fun h => by cases h)
  | a :: cs, [] => by
    simp only [lexLe]
    exact iff_of_false (by simp) (fun h => h (List.lt.nil a cs))
  | a :: cs, b :: ds => by
    simp only [lexLe]
    by_cases hab : a < b
    · simp only [hab, if_true]
      refine iff_of_true trivial (fun h => ?_)
      cases h with
      | head _ _ h' => exact absurd hab (lt_asymm h')
      | tail h1 h2 _ => exact h2 hab
    · by_cases hba : b < a
      · simp only [hab, hba, if_false, if_true]
        exact iff_of_false (by simp) (fun h => h (List.lt.head ds cs hba))
      · simp only [hab, hba, if_false]
        rw [lexLe_iff cs ds]
        constructor
        · intro h hlt
          cases hlt with
          | head _ _ h' => exact hba h'
          | tail _ _ h3 => exact h h3
        · intro h hlt
          exact h (List.lt.tail hba hab hlt)

/-- `strLeB` decides the standard order on `String`. -/
theorem strLeB_le (a b : String) : strLeB a b = true ↔ a ≤ b := by
  show lexLe a.data b.data = true ↔ a ≤ b
  rw [lexLe_iff, List.lt_iff_lex_lt]
  constructor
  · intro h
    exact not_lt.mp (fun hlt => h (String.lt_iff_toList_lt.mp hlt))
  · intro h hlt
    exact absurd (String.lt_iff_toList_lt.mpr hlt) (not_lt.mpr h)

/-- A kernel-reducible decision procedure for `String` order. -/
def strLeDec : (a b : String) → Decidable (a ≤ b) := fun a b =>
  decidable_of_iff (strLeB a b = true) (strLeB_le a b)

/-- `sorted` from Python over a set of strings: the unique arrangement of
the (duplicate-free) elements in nondecreasing lexicographic order,
computed by insertion sort.  Uniqueness of the sorted arrangement is proved
in `sortStrings_perm`. -/
def sortStrings (l : List String) : List String :=
  @List.insertionSort String (· ≤ ·) strLeDec l

/-- Python dict assignment `d[k] = v` on a dict kept as an association
list in insertion order: an existing key keeps its position and gets the
new value, a new key is appended. -/
def dictInsert (m : List (String × String)) (k v : String) : List (String × String) :=
  if m.any (fun p => p.1 == k) then m.map (fun p => if p.1 == k then (k, v) else p)
  else m ++ [(k, v)]

/-- A Python dict built from a sequence of key-value pairs (as in the dict
comprehension of `parse_results`): later pairs overwrite earlier ones. -/
def dictOfPairs (ps : List (String × String)) : List (String × String) :=
  ps.foldl (fun m p => dictInsert m p.1 p.2) []

/-- Dict lookup: the value at a key, if present. -/
def dictFind (m : List (String × String)) (k : String) : Option String :=
  (m.find? (fun p => p.1 == k)).map (fun p => p.2)

/-- Python `d.get(k, d0)`: the value at the key, or the default. -/
def dictGetD (m : List (String × String)) (k d : String) : String :=
  (dictFind m k).getD d

/-- `parse_municipalities` from src/main.py: returns
(municipality_ids, municipality_names, municipality_hrefs).
An anchor lacking an `href` attribute would raise in the source; the model
skips it, and the theorems that need the distinction assume presence. -/
def parse_municipalities (html : Node) : List String × List String × List String :=
  let td_municipality_number := html.findAll isCodeCell
  let td_municipality_name := html.findAll isNameCell
  let municipality_hrefs :=
    td_municipality_number.flatMap (fun td => (td.findAll isAnchor).filterMap Node.hrefAttr)
  let municipality_ids :=
    td_municipality_number.flatMap (fun td => (td.findAll isAnchor).map Node.text)
  let municipality_names := td_municipality_name.map Node.text
  (municipality_ids, municipality_names, municipality_hrefs)

/-- Python `str.strip()`: remove leading and trailing whitespace. -/
def stripStr (s : String) : String :=
  String.mk (((s.data.dropWhile isWsChar).reverse.dropWhile isWsChar).reverse)

/-- The category-name texts of a results page: the texts of all
`td.overflow_name` cells, in document order (`parties` in `parse_results`). -/
def pageParties (html : Node) : List String :=
  (html.findAll isNameCell).map Node.text

/-- The vote-count texts of a results page: the texts of all cells whose
`headers` attribute matches the dual-table pattern, in document order
(`votes` in `parse_results`). -/
def pageVotes (html : Node) : List String :=
  (html.findAll isVoteCell).map Node.text

/-- The positionally zipped (name, vote) pairs of a results page. -/
def pagePairs (html : Node) : List (String × String) :=
  (pageParties html).zip (pageVotes html)

/-- The result of `parse_results`, with the fields of the returned tuple. -/
structure ParsedResults where
  registered_voters : List String
  envelopes : List String
  valid_votes : List String
  party_votes : List (String × String)
  region_name : String

/-- `parse_results` from src/main.py. -/
def parse_results (html : Node) : ParsedResults :=
  let registered_voters := (html.findAll isRegisteredCell).map Node.text
  let envelopes := (html.findAll isEnvelopesCell).map Node.text
  let valid_votes := (html.findAll isValidVotesCell).map Node.text
  let title_tags := html.findAll isH3
  let region_name :=
    if title_tags.length > 1 then stripStr (Node.text (title_tags.getD 1 (.textNode "")))
    else "municipality"
  { registered_voters := registered_voters
    envelopes := envelopes
    valid_votes := valid_votes
    party_votes := dictOfPairs (pagePairs html)
    region_name := region_name }

/-- One row of the aggregation, as built in the loop of `main`. -/
structure Row where
  id : String
  location : String
  registered : String
  envelopes : String
  valid : String
  party_votes : List (String × String)

/-- The five fixed header columns. -/
def fixedHeader : List String :=
  ["id", "location", "registered voters", "envelopes", "valid votes"]

/-- The distinct category names seen across all rows (the set comprehension
in `write_municipality_csv`); `dedup` models the set, whose enumeration
order is immaterial once sorted (`buildTableWith_perm`). -/
def partyUniverse (rows : List Row) : List String :=
  (rows.flatMap (fun r => r.party_votes.map Prod.fst)).dedup

/-- The value sequence of one output row: the five scalar fields, then for
each category column that row's count, defaulting to the empty string
(`row["party_votes"].get(party, "")`). -/
def rowValues (r : Row) (all_parties : List String) : List String :=
  [r.id, r.location, r.registered, r.envelopes, r.valid] ++
    all_parties.map (fun p => dictGetD r.party_votes p "")

/-- The table (header, value rows) produced from a given enumeration of
the category-name set. -/
def buildTableWith (rows : List Row) (univ : List String) :
    List String × List (List String) :=
  let all_parties := sortStrings univ
  (fixedHeader ++ all_parties, rows.map (fun r => rowValues r all_parties))

/-- `write_municipality_csv` from src/main.py, minus the file system: the
header and rows it passes to the CSV writer (an external collaborator). -/
def write_municipality_csv (all_rows : List Row) : List String × List (List String) :=
  buildTableWith all_rows (partyUniverse all_rows)

/-- `create_link` from src/main.py. -/
def create_link (path : String) : String :=
  "https://www.volby.cz/pls/ps2017nss/" ++ path

/-- Python `zip` over three lists: truncates to the shortest. -/
def zip3 : List α → List β → List γ → List (α × β × γ)
  | a :: xs, b :: ys, c :: zs => (a, b, c) :: zip3 xs ys zs
  | _, _, _ => []

/-- The outcome of one invocation of the program: exit status, lines
printed to standard output and to standard error, and the file written
(path and table), if any. -/
structure RunOutcome where
  exitCode : Nat
  stdoutLines : List String
  stderrLines : List String
  written : Option (String × (List String × List (List String)))

/-- The usage message of `main`. -/
def usageMsg : String :=
  "Usage: python script.py <municipality_url> <output_file.csv>"

/-- The per-municipality loop of `main`: fetch each municipality's page,
run `parse_results`, and build its `Row`.  A failed fetch is an uncaught
exception in the source: it propagates, so the whole loop fails. -/
def buildRows (fetch : String → Except String Node) :
    List (String × String × String) → Except String (List Row)
  | [] => .ok []
  | (m_id, m_name, href) :: rest =>
    match fetch (create_link href) with
    | .error e => .error e
    | .ok html_m =>
      let r := parse_results html_m
      match buildRows fetch rest with
      | .error e => .error e
      | .ok rows =>
        .ok ({ id := m_id
               location := m_name
               registered := r.registered_voters.headD ""
               envelopes := r.envelopes.headD ""
               valid := r.valid_votes.headD ""
               party_votes := r.party_votes } :: rows)

/-- `main` from src/main.py, over an abstract fetch collaborator.
A fetch failure for the index page is caught and reported via `print`
(standard output) with exit code 1; a fetch failure inside the loop is an
uncaught exception: Python prints a traceback to standard error and the
process exits with code 1.  The file is written only on the success path. -/
def run (argv : List String) (fetch : String → Except String Node) : RunOutcome :=
  match argv with
  | [_, municipality_url, filename] =>
    (match fetch municipality_url with
     | .error e =>
       { exitCode := 1
         stdoutLines := ["Error loading " ++ municipality_url ++ ": " ++ e]
         stderrLines := []
         written := none }
     | .ok html =>
       match buildRows fetch (zip3 (parse_municipalities html).1
           (parse_municipalities html).2.1 (parse_municipalities html).2.2) with
       | .error e =>
         { exitCode := 1
           stdoutLines := []
           stderrLines := ["Traceback (most recent call last): " ++ e]
           written := none }
       | .ok all_rows =>
         { exitCode := 0
           stdoutLines := ["Saved " ++ filename]
           stderrLines := []
           written := some (filename, write_municipality_csv all_rows) })
  | _ =>
    { exitCode := 1
      stdoutLines := [usageMsg]
      stderrLines := []
      written := none }

/-! ## Helper lemmas about the dict model -/

/-- The value paired with the last occurrence of a key in a pair sequence,
if the key occurs at all. -/
def lookupLast : List (String × String) → String → Option String
  | [], _ => none
  | p :: ps, k =>
    match lookupLast ps k with
    | some v => some v
    | none => if p.1 = k then some p.2 else none

theorem dictFind_nil (k : String) : dictFind [] k = none := rfl

theorem dictFind_cons (p : String × String) (m : List (String × String)) (k : String) :
    dictFind (p :: m) k = if p.1 = k then some p.2 else dictFind m k := by
  by_cases h : p.1 = k
  · unfold dictFind
    rw [List.find?_cons_of_pos _ (by simp [h])]
    simp [h]
  · unfold dictFind
    rw [List.find?_cons_of_neg _ (by simp [h])]
    simp [h]

theorem lookupLast_cons (p : String × String) (ps : List (String × String)) (k : String) :
    lookupLast (p :: ps) k
      = match lookupLast ps k with
        | some v => some v
        | none => if p.1 = k then some p.2 else none := rfl

theorem lookupLast_eq_none (ps : List (String × String)) (k : String) :
    lookupLast ps k = none ↔ k ∉ ps.map Prod.fst := by
  induction ps with
  | nil => simp [lookupLast]
  | cons p ps ih =>
    rw [lookupLast_cons]
    cases h : lookupLast ps k with
    | some v =>
      refine iff_of_false (by simp) (fun hnot => ?_)
      have hmem : k ∈ ps.map Prod.fst := by
        by_contra hk
        rw [← ih] at hk
        rw [h] at hk
        cases hk
      exact hnot (by simp [hmem])
    | none =>
      by_cases hpk : p.1 = k
      · refine iff_of_false (by simp [hpk]) (fun hnot => ?_)
        exact hnot (by simp [← hpk])
      · have hk : k ∉ ps.map Prod.fst := ih.mp h
        refine iff_of_true (by simp [hpk]) ?_
        simp only [List.map_cons, List.mem_cons, not_or]
        exact ⟨fun he => hpk he.symm, hk⟩

theorem dictFind_eq_none (m : List (String × String)) (k : String) :
    dictFind m k = none ↔ k ∉ m.map Prod.fst := by
  induction m with
  | nil => simp [dictFind_nil]
  | cons p m ih =>
    rw [dictFind_cons]
    by_cases h : p.1 = k
    · refine iff_of_false (by simp [h]) (fun hnot => hnot (by simp [← h]))
    · rw [if_neg h, ih]
      simp only [List.map_cons, List.mem_cons, not_or]
      exact ⟨fun hk => ⟨fun he => h he.symm, hk⟩, fun hk => hk.2⟩

theorem keys_map_subst (m : List (String × String)) (k v : String) :
    (m.map (fun p => if p.1 == k then (k, v) else p)).map Prod.fst = m.map Prod.fst := by
  rw [List.map_map]
  apply List.map_congr_left
  intro p _
  by_cases h : p.1 = k
  · simp [h]
  · simp [h]

theorem dictFind_map_subst (m : List (String × String)) (k v k' : String) :
    dictFind (m.map (fun p => if p.1 == k then (k, v) else p)) k'
      = if k' = k then (if m.any (fun p => p.1 == k) then some v else none)
        else dictFind m k' := by
  induction m with
  | nil => by_cases h : k' = k <;> simp [dictFind_nil, h]
  | cons p m ih =>
    rw [List.map_cons, List.any_cons]
    by_cases hpk : p.1 = k
    · have hb : (p.1 == k) = true := by simp [hpk]
      rw [hb]
      simp only [if_true, Bool.true_or]
      rw [dictFind_cons]
      by_cases hk : k' = k
      · subst hk
        simp [dictFind_cons]
      · rw [if_neg (fun he : k = k' => hk he.symm), ih, if_neg hk, if_neg hk,
          dictFind_cons, if_neg (fun he : p.1 = k' => hk (hpk ▸ he).symm)]
    · have hb : (p.1 == k) = false := by simp [hpk]
      rw [hb]
      simp only [Bool.false_eq_true, if_false, Bool.false_or]
      rw [dictFind_cons, dictFind_cons]
      by_cases hk : k' = k
      · subst hk
        rw [if_neg (fun he : p.1 = k' => hpk he), ih, if_pos rfl, if_pos rfl]
      · by_cases hp' : p.1 = k'
        · rw [if_pos hp', if_neg hk, if_pos hp']
        · rw [if_neg hp', if_neg hp', ih, if_neg hk]

theorem dictFind_append (m₁ m₂ : List (String × String)) (k : String) :
    dictFind (m₁ ++ m₂) k
      = match dictFind m₁ k with
        | some v => some v
        | none => dictFind m₂ k := by
  induction m₁ with
  | nil => simp [dictFind_nil]
  | cons p m₁ ih =>
    rw [List.cons_append, dictFind_cons, dictFind_cons]
    by_cases h : p.1 = k
    · simp [h]
    · rw [if_neg h, if_neg h, ih]

theorem not_mem_keys_of_any_eq_false (m : List (String × String)) (k : String)
    (hf : m.any (fun p => p.1 == k) = false) : k ∉ m.map Prod.fst := by
  intro hmem
  rcases List.mem_map.mp hmem with ⟨p, hp, hpk⟩
  have := List.any_eq_false.mp hf p hp
  simp [hpk] at this

theorem dictFind_dictInsert (m : List (String × String)) (k v k' : String) :
    dictFind (dictInsert m k v) k' = if k' = k then some v else dictFind m k' := by
  unfold dictInsert
  cases hany : m.any (fun p => p.1 == k) with
  | true =>
    rw [if_pos rfl, dictFind_map_subst, hany]
    by_cases hk : k' = k <;> simp [hk]
  | false =>
    rw [if_neg (by simp), dictFind_append]
    by_cases hk : k' = k
    · subst hk
      have hnone : dictFind m k' = none :=
        (dictFind_eq_none m k').mpr (not_mem_keys_of_any_eq_false m k' hany)
      rw [hnone]
      simp [dictFind_cons]
    · cases hm : dictFind m k' with
      | some v' => simp [hk]
      | none =>
        simp only []
        rw [dictFind_cons, if_neg (fun he : k = k' => hk he.symm), dictFind_nil, if_neg hk]

theorem mem_keys_dictInsert (m : List (String × String)) (k v k' : String) :
    k' ∈ (dictInsert m k v).map Prod.fst ↔ k' ∈ m.map Prod.fst ∨ k' = k := by
  unfold dictInsert
  cases hany : m.any (fun p => p.1 == k) with
  | true =>
    rw [if_pos rfl, keys_map_subst]
    constructor
    · exact Or.inl
    · intro h
      rcases h with h | h
      · exact h
      · subst h
        rcases List.any_eq_true.mp hany with ⟨p, hp, hpk⟩
        exact (eq_of_beq hpk) ▸ List.mem_map_of_mem Prod.fst hp
  | false =>
    rw [if_neg (by simp), List.map_append]
    simp only [List.map_cons, List.map_nil, List.mem_append, List.mem_cons,
      List.not_mem_nil, or_false]

theorem nodup_keys_dictInsert (m : List (String × String)) (k v : String)
    (h : (m.map Prod.fst).Nodup) : ((dictInsert m k v).map Prod.fst).Nodup := by
  unfold dictInsert
  cases hany : m.any (fun p => p.1 == k) with
  | true =>
    rw [if_pos rfl, keys_map_subst]
    exact h
  | false =>
    rw [if_neg (by simp), List.map_append]
    simp only [List.map_cons, List.map_nil]
    rw [List.nodup_append]
    refine ⟨h, List.nodup_singleton k, fun x hx hk => ?_⟩
    simp only [List.mem_cons, List.not_mem_nil, or_false] at hk
    subst hk
    exact not_mem_keys_of_any_eq_false m x hany hx

theorem dictFind_foldl (ps : List (String × String)) (m : List (String × String))
    (k : String) :
    dictFind (ps.foldl (fun m p => dictInsert m p.1 p.2) m) k
      = match lookupLast ps k with
        | some v => some v
        | none => dictFind m k := by
  induction ps generalizing m with
  | nil => simp [lookupLast]
  | cons p ps ih =>
    rw [List.foldl_cons, ih, lookupLast_cons]
    cases h : lookupLast ps k with
    | some v => rfl
    | none =>
      simp only []
      rw [dictFind_dictInsert]
      by_cases hk : k = p.1
      · rw [if_pos hk, if_pos hk.symm]
      · rw [if_neg hk, if_neg (fun he : p.1 = k => hk he.symm)]

theorem dictFind_dictOfPairs (ps : List (String × String)) (k : String) :
    dictFind (dictOfPairs ps) k = lookupLast ps k := by
  unfold dictOfPairs
  rw [dictFind_foldl]
  cases h : lookupLast ps k with
  | some v => rfl
  | none => exact dictFind_nil k

theorem mem_keys_foldl (ps : List (String × String)) (m : List (String × String))
    (k : String) :
    k ∈ ((ps.foldl (fun m p => dictInsert m p.1 p.2) m).map Prod.fst)
      ↔ k ∈ m.map Prod.fst ∨ k ∈ ps.map Prod.fst := by
  induction ps generalizing m with
  | nil => simp
  | cons p ps ih =>
    rw [List.foldl_cons, ih, mem_keys_dictInsert]
    simp only [List.map_cons, List.mem_cons]
    tauto

theorem mem_keys_dictOfPairs (ps : List (String × String)) (k : String) :
    k ∈ (dictOfPairs ps).map Prod.fst ↔ k ∈ ps.map Prod.fst := by
  unfold dictOfPairs
  rw [mem_keys_foldl]
  simp

theorem nodup_keys_foldl (ps : List (String × String)) (m : List (String × String))
    (h : (m.map Prod.fst).Nodup) :
    ((ps.foldl (fun m p => dictInsert m p.1 p.2) m).map Prod.fst).Nodup := by
  induction ps generalizing m with
  | nil => exact h
  | cons p ps ih =>
    rw [List.foldl_cons]
    exact ih _ (nodup_keys_dictInsert m p.1 p.2 h)

theorem nodup_keys_dictOfPairs (ps : List (String × String)) :
    ((dictOfPairs ps).map Prod.fst).Nodup :=
  nodup_keys_foldl ps [] (by simp)

theorem length_dictOfPairs (ps : List (String × String)) :
    (dictOfPairs ps).length = ((ps.map Prod.fst).dedup).length := by
  have h1 : (dictOfPairs ps).length = ((dictOfPairs ps).map Prod.fst).length := by
    simp
  have h2 : ((dictOfPairs ps).map Prod.fst).toFinset
      = ((ps.map Prod.fst).dedup).toFinset := by
    apply Finset.ext
    intro a
    simp only [List.mem_toFinset, List.mem_dedup]
    exact mem_keys_dictOfPairs ps a
  rw [h1,
    ← List.toFinset_card_of_nodup (nodup_keys_dictOfPairs ps),
    ← List.toFinset_card_of_nodup (List.nodup_dedup (ps.map Prod.fst)),
    h2]

theorem lookupLast_getElem (ps : List (String × String)) (j : Nat) (hj : j < ps.length)
    (hlast : ∀ j' (hj' : j' < ps.length), j < j' →
      (ps.get ⟨j', hj'⟩).1 ≠ (ps.get ⟨j, hj⟩).1) :
    lookupLast ps (ps.get ⟨j, hj⟩).1 = some (ps.get ⟨j, hj⟩).2 := by
  induction ps generalizing j with
  | nil => cases hj
  | cons p ps ih =>
    cases j with
    | zero =>
      have hnone : lookupLast ps p.1 = none := by
        rw [lookupLast_eq_none]
        intro hmem
        rcases List.mem_map.mp hmem with ⟨q, hq, hqk⟩
        rcases List.getElem_of_mem hq with ⟨i, hi, hqi⟩
        have := hlast (i + 1) (by simpa using Nat.succ_lt_succ hi) (Nat.succ_pos i)
        simp only [List.get_eq_getElem, List.getElem_cons_succ, List.getElem_cons_zero] at this
        exact this (by rw [hqi, hqk])
      simp only [List.get_eq_getElem, List.getElem_cons_zero]
      rw [lookupLast_cons, hnone]
      simp
    | succ j₀ =>
      have hj₀ : j₀ < ps.length := Nat.lt_of_succ_lt_succ hj
      have hlast' : ∀ j' (hj' : j' < ps.length), j₀ < j' →
          (ps.get ⟨j', hj'⟩).1 ≠ (ps.get ⟨j₀, hj₀⟩).1 := by
        intro j' hj' hgt
        have := hlast (j' + 1) (by simpa using Nat.succ_lt_succ hj') (Nat.succ_lt_succ hgt)
        simpa using this
      have hih := ih j₀ hj₀ hlast'
      simp only [List.get_eq_getElem, List.getElem_cons_succ]
      simp only [List.get_eq_getElem] at hih
      rw [lookupLast_cons, hih]

/-! ## Helper lemmas about sorting, zipping and the driver -/

theorem sortStrings_sorted (l : List String) : (sortStrings l).Sorted (· ≤ ·) :=
  @List.sorted_insertionSort String (· ≤ ·) strLeDec inferInstance inferInstance l

theorem sortStrings_perm (l : List String) : (sortStrings l).Perm l :=
  @List.perm_insertionSort String (· ≤ ·) strLeDec l

theorem sortStrings_eq_of_perm (l₁ l₂ : List String) (h : l₁.Perm l₂) :
    sortStrings l₁ = sortStrings l₂ :=
  List.eq_of_perm_of_sorted
    ((sortStrings_perm l₁).trans (h.trans (sortStrings_perm l₂).symm))
    (sortStrings_sorted l₁) (sortStrings_sorted l₂)

theorem mem_sortStrings (l : List String) (s : String) :
    s ∈ sortStrings l ↔ s ∈ l :=
  (sortStrings_perm l).mem_iff

theorem nodup_sortStrings (l : List String) (h : l.Nodup) : (sortStrings l).Nodup :=
  ((sortStrings_perm l).nodup_iff).mpr h

theorem zip_eq_zip_take : ∀ (p : List α) (v : List β),
    p.zip v = (p.take (min p.length v.length)).zip (v.take (min p.length v.length))
  | [], _ => by simp
  | _ :: _, [] => by simp
  | a :: p, b :: v => by
    simp only [List.zip_cons_cons, List.length_cons]
    rw [Nat.succ_min_succ, List.take_succ_cons, List.take_succ_cons,
      List.zip_cons_cons]
    exact congrArg _ (zip_eq_zip_take p v)

theorem map_fst_zip_take : ∀ (p : List α) (v : List β),
    (p.zip v).map Prod.fst = p.take (min p.length v.length)
  | [], _ => by simp
  | _ :: _, [] => by simp
  | a :: p, b :: v => by
    simp only [List.zip_cons_cons, List.map_cons, List.length_cons]
    rw [Nat.succ_min_succ, List.take_succ_cons]
    exact congrArg _ (map_fst_zip_take p v)

theorem length_flatMap_of_one (l : List α) (f : α → List β)
    (h : ∀ x ∈ l, (f x).length = 1) : (l.flatMap f).length = l.length := by
  induction l with
  | nil => simp
  | cons a l ih =>
    rw [List.flatMap_cons, List.length_append, h a (List.mem_cons_self a l),
      ih (fun x hx => h x (List.mem_cons_of_mem a hx)), List.length_cons,
      Nat.add_comm]

theorem buildRows_error (fetch : String → Except String Node) :
    ∀ ts : List (String × String × String),
      (∃ t ∈ ts, ∃ e, fetch (create_link t.2.2) = .error e) →
      ∃ e, buildRows fetch ts = .error e := by
  intro ts
  induction ts with
  | nil => rintro ⟨t, ht, _⟩; cases ht
  | cons t ts ih =>
    rintro ⟨t', ht', e', he'⟩
    rcases t with ⟨m_id, m_name, href⟩
    rcases List.mem_cons.mp ht' with h | h
    · subst h
      refine ⟨e', ?_⟩
      unfold buildRows
      rw [he']
    · rcases ih ⟨t', h, e', he'⟩ with ⟨e, he⟩
      unfold buildRows
      cases hf : fetch (create_link href) with
      | error e₀ => exact ⟨e₀, rfl⟩
      | ok html_m =>
        rw [he]
        exact ⟨e, rfl⟩

/-! ## The fields of `parse_results`, named -/

theorem parse_results_registered (html : Node) :
    (parse_results html).registered_voters = (html.findAll isRegisteredCell).map Node.text := rfl

theorem parse_results_envelopes (html : Node) :
    (parse_results html).envelopes = (html.findAll isEnvelopesCell).map Node.text := rfl

theorem parse_results_valid (html : Node) :
    (parse_results html).valid_votes = (html.findAll isValidVotesCell).map Node.text := rfl

theorem parse_results_party_votes (html : Node) :
    (parse_results html).party_votes = dictOfPairs (pagePairs html) := rfl

/-! ## Concrete documents and fetchers used as witnesses -/

/-- A results page with categories A, B, C and votes 10, 20, 30 in matching
document order, together with the three scalar counters. -/
def samplePage : Node :=
  .elem "html" [] [
    .elem "td" [("headers", ["sa2"])] [.textNode "100"],
    .elem "td" [("headers", ["sa3"])] [.textNode "80"],
    .elem "td" [("headers", ["sa6"])] [.textNode "75"],
    .elem "td" [("class", ["overflow_name"])] [.textNode "A"],
    .elem "td" [("class", ["overflow_name"])] [.textNode "B"],
    .elem "td" [("class", ["overflow_name"])] [.textNode "C"],
    .elem "td" [("headers", ["t1sa2", "t1sb3"])] [.textNode "10"],
    .elem "td" [("headers", ["t1sa2", "t1sb3"])] [.textNode "20"],
    .elem "td" [("headers", ["t2sa2", "t2sb3"])] [.textNode "30"] ]

/-- A results page lacking the registered-voters marker `sa2` but carrying
the other two counters. -/
def missingRegPage : Node :=
  .elem "html" [] [
    .elem "td" [("headers", ["sa3"])] [.textNode "80"],
    .elem "td" [("headers", ["sa6"])] [.textNode "75"],
    .elem "td" [("class", ["overflow_name"])] [.textNode "A"],
    .elem "td" [("headers", ["t1sa2", "t1sb3"])] [.textNode "10"] ]

/-- A results page on which the same category name A appears twice, with
different vote counts. -/
def dupPage : Node :=
  .elem "html" [] [
    .elem "td" [("class", ["overflow_name"])] [.textNode "A"],
    .elem "td" [("class", ["overflow_name"])] [.textNode "A"],
    .elem "td" [("headers", ["t1sa2", "t1sb3"])] [.textNode "1"],
    .elem "td" [("headers", ["t1sa2", "t1sb3"])] [.textNode "2"] ]

/-- A results page with three category names but only two vote counts. -/
def unbalancedPage : Node :=
  .elem "html" [] [
    .elem "td" [("class", ["overflow_name"])] [.textNode "A"],
    .elem "td" [("class", ["overflow_name"])] [.textNode "B"],
    .elem "td" [("class", ["overflow_name"])] [.textNode "C"],
    .elem "td" [("headers", ["t1sa2", "t1sb3"])] [.textNode "10"],
    .elem "td" [("headers", ["t1sa2", "t1sb3"])] [.textNode "20"] ]

/-- An index page with two well-formed municipality entries. -/
def goodIndexPage : Node :=
  .elem "html" [] [
    .elem "td" [("class", ["cislo"])] [.elem "a" [("href", ["ps311?x=1"])] [.textNode "500011"]],
    .elem "td" [("class", ["overflow_name"])] [.textNode "Alpha"],
    .elem "td" [("class", ["cislo"])] [.elem "a" [("href", ["ps311?x=2"])] [.textNode "500012"]],
    .elem "td" [("class", ["overflow_name"])] [.textNode "Beta"] ]

/-- An index page with one code cell that contains no hyperlink, next to
one name cell. -/
def brokenIndexPage : Node :=
  .elem "html" [] [
    .elem "td" [("class", ["cislo"])] [.textNode "500011"],
    .elem "td" [("class", ["overflow_name"])] [.textNode "Alpha"] ]

/-- A fetch collaborator for which every URL fails. -/
def fetchFail : String → Except String Node := fun _ => .error "connection refused"

/-- A fetch collaborator that serves the index page but fails on every
municipality page. -/
def locFailFetch : String → Except String Node := fun url =>
  if url = "http://idx" then .ok goodIndexPage else .error "down"

/-- A fetch collaborator that serves an index page with no municipalities. -/
def emptyFetch : String → Except String Node := fun _ => .ok (.elem "html" [] [])

/-! ## The claims -/

/-- C1: for every results page whose category-name cells and vote-count
cells appear in matching document order and in equal number (the names
being distinct, as the data model requires of `CategoryVotes` keys), the
extractor returns the mapping that pairs the i-th category name with the
i-th vote count. -/
theorem parse_results_pairs_positionally (doc : Node)
    (hnd : (pageParties doc).Nodup)
    (hlen : (pageParties doc).length = (pageVotes doc).length)
    (i : Nat) (name vote : String)
    (hname : (pageParties doc)[i]? = some name)
    (hvote : (pageVotes doc)[i]? = some vote) :
    dictFind (parse_results doc).party_votes name = some vote := by
  obtain ⟨hi, hnameEq⟩ := List.getElem?_eq_some.mp hname
  obtain ⟨hiv, hvoteEq⟩ := List.getElem?_eq_some.mp hvote
  have hmineq : min (pageParties doc).length (pageVotes doc).length
      = (pageParties doc).length := Nat.min_eq_left (Nat.le_of_eq hlen)
  have hplen : (pagePairs doc).length = (pageParties doc).length := by
    rw [pagePairs, List.length_zip]
    exact hmineq
  have hzi : i < (pagePairs doc).length := hplen ▸ hi
  have hkeys : ∀ j (hj : j < (pagePairs doc).length),
      ((pagePairs doc).get ⟨j, hj⟩).1 = (pageParties doc).get ⟨j, hplen ▸ hj⟩ := by
    intro j hj
    simp only [pagePairs, List.get_eq_getElem, List.getElem_zip]
  have hlast : ∀ j' (hj' : j' < (pagePairs doc).length), i < j' →
      ((pagePairs doc).get ⟨j', hj'⟩).1 ≠ ((pagePairs doc).get ⟨i, hzi⟩).1 := by
    intro j' hj' hlt heq
    rw [hkeys j' hj', hkeys i hzi] at heq
    have := (List.Nodup.get_inj_iff hnd).mp heq
    have : j' = i := congrArg Fin.val this
    omega
  have hfound := lookupLast_getElem (pagePairs doc) i hzi hlast
  have hpair : (pagePairs doc).get ⟨i, hzi⟩ = (name, vote) := by
    simp only [pagePairs, List.get_eq_getElem, List.getElem_zip]
    rw [hnameEq, hvoteEq]
  rw [hpair] at hfound
  rw [parse_results_party_votes, dictFind_dictOfPairs]
  exact hfound

/-- C1 witness: on the A/B/C page the extractor maps B, the second
category, to 20, the second vote count. -/
theorem parse_results_pairs_positionally_witness :
    dictFind (parse_results samplePage).party_votes "B" = some "20" :=
  parse_results_pairs_positionally samplePage (by decide) (by decide) 1 "B" "20"
    (by decide) (by decide)

/-- C9: when the numbers of category-name cells and vote-count cells
differ, no error is raised: the mapping is built from the pairs up to the
length of the shorter sequence, and the excess elements of the longer one
are dropped. -/
theorem parse_results_truncates (doc : Node) :
    (parse_results doc).party_votes
        = dictOfPairs
            (((pageParties doc).take (min (pageParties doc).length (pageVotes doc).length)).zip
              ((pageVotes doc).take (min (pageParties doc).length (pageVotes doc).length))) ∧
    (pagePairs doc).length = min (pageParties doc).length (pageVotes doc).length ∧
    (∀ k, k ∈ (parse_results doc).party_votes.map Prod.fst →
      k ∈ (pageParties doc).take (min (pageParties doc).length (pageVotes doc).length)) := by
  refine ⟨?_, ?_, ?_⟩
  · rw [parse_results_party_votes, pagePairs, zip_eq_zip_take]
  · rw [pagePairs, List.length_zip]
  · intro k hk
    rw [parse_results_party_votes] at hk
    have := (mem_keys_dictOfPairs (pagePairs doc) k).mp hk
    rw [pagePairs, map_fst_zip_take] at this
    exact this

/-- C9 witness: on a page with three category names and two vote counts,
the third name A does not survive, but the first does: its key is among
the first two names. -/
theorem parse_results_truncates_witness :
    (parse_results unbalancedPage).party_votes
        = dictOfPairs
            (((pageParties unbalancedPage).take
                (min (pageParties unbalancedPage).length (pageVotes unbalancedPage).length)).zip
              ((pageVotes unbalancedPage).take
                (min (pageParties unbalancedPage).length (pageVotes unbalancedPage).length))) ∧
    "A" ∈ (pageParties unbalancedPage).take
        (min (pageParties unbalancedPage).length (pageVotes unbalancedPage).length) :=
  ⟨(parse_results_truncates unbalancedPage).1,
   (parse_results_truncates unbalancedPage).2.2 "A" (by decide)⟩

/-- C10: when the same category name occurs more than once among the
paired entries, the mapping holds one entry for it, whose value is the
vote count paired with its last occurrence, and the mapping's size is the
number of distinct names among the paired entries. -/
theorem parse_results_last_duplicate_wins (doc : Node) (i j : Nat) (name : String)
    (hij : i < j)
    (hi : ((pagePairs doc).map Prod.fst)[i]? = some name)
    (hj : ((pagePairs doc).map Prod.fst)[j]? = some name)
    (hlast : ∀ j', j < j' → ((pagePairs doc).map Prod.fst)[j']? ≠ some name) :
    dictFind (parse_results doc).party_votes name = ((pagePairs doc).map Prod.snd)[j]? ∧
    ((parse_results doc).party_votes.map Prod.fst).Nodup ∧
    (parse_results doc).party_votes.length = ((pagePairs doc).map Prod.fst).dedup.length := by
  obtain ⟨hjlt, hjEq⟩ := List.getElem?_eq_some.mp hj
  have hjlt' : j < (pagePairs doc).length := by
    simpa using hjlt
  have hkey : ((pagePairs doc).get ⟨j, hjlt'⟩).1 = name := by
    have := hjEq
    simpa [List.getElem_map] using this
  refine ⟨?_, ?_, ?_⟩
  · have hlast' : ∀ j' (hj' : j' < (pagePairs doc).length), j < j' →
        ((pagePairs doc).get ⟨j', hj'⟩).1 ≠ ((pagePairs doc).get ⟨j, hjlt'⟩).1 := by
      intro j' hj' hlt heq
      apply hlast j' hlt
      rw [hkey] at heq
      rw [List.getElem?_map, List.getElem?_eq_getElem hj']
      simp only [Option.map_some']
      simp only [List.get_eq_getElem] at heq
      rw [heq]
    have hfound := lookupLast_getElem (pagePairs doc) j hjlt' hlast'
    rw [hkey] at hfound
    rw [parse_results_party_votes, dictFind_dictOfPairs, hfound,
      List.getElem?_map, List.getElem?_eq_getElem hjlt']
    simp only [Option.map_some']
    rfl
  · rw [parse_results_party_votes]
    exact nodup_keys_dictOfPairs (pagePairs doc)
  · rw [parse_results_party_votes]
    exact length_dictOfPairs (pagePairs doc)

/-- C10 witness: on the page where A appears twice, paired with 1 and
then 2, the mapping sends A to 2 and has a single entry. -/
theorem parse_results_last_duplicate_wins_witness :
    dictFind (parse_results dupPage).party_votes "A"
        = ((pagePairs dupPage).map Prod.snd)[1]? ∧
    (parse_results dupPage).party_votes.length
        = ((pagePairs dupPage).map Prod.fst).dedup.length := by
  have h := parse_results_last_duplicate_wins dupPage 0 1 "A" (by decide) (by decide)
    (by decide)
    (fun j' hj' => by
      have hnone : ((pagePairs dupPage).map Prod.fst)[j']? = none :=
        List.getElem?_eq_none (by
          have hlen : ((pagePairs dupPage).map Prod.fst).length = 2 := by decide
          omega)
      rw [hnone]
      simp)
  exact ⟨h.1, h.2.2⟩

/-- C2: on a results page on which exactly one of the three scalar-counter
markers matches no element, the extractor returns the absent
representation (the empty match list) for exactly that counter and the
extracted texts for the other two; the absent representation is distinct
from the representation of a present counter with empty text. -/
theorem parse_results_absent_scalar (doc : Node)
    (habs :
      ((doc.findAll isRegisteredCell).length = 0 ∧ (doc.findAll isEnvelopesCell).length ≠ 0 ∧
        (doc.findAll isValidVotesCell).length ≠ 0) ∨
      ((doc.findAll isRegisteredCell).length ≠ 0 ∧ (doc.findAll isEnvelopesCell).length = 0 ∧
        (doc.findAll isValidVotesCell).length ≠ 0) ∨
      ((doc.findAll isRegisteredCell).length ≠ 0 ∧ (doc.findAll isEnvelopesCell).length ≠ 0 ∧
        (doc.findAll isValidVotesCell).length = 0)) :
    (parse_results doc).registered_voters = (doc.findAll isRegisteredCell).map Node.text ∧
    (parse_results doc).envelopes = (doc.findAll isEnvelopesCell).map Node.text ∧
    (parse_results doc).valid_votes = (doc.findAll isValidVotesCell).map Node.text ∧
    (((parse_results doc).registered_voters = [] ∧ (parse_results doc).envelopes ≠ [] ∧
        (parse_results doc).valid_votes ≠ []) ∨
      ((parse_results doc).registered_voters ≠ [] ∧ (parse_results doc).envelopes = [] ∧
        (parse_results doc).valid_votes ≠ []) ∨
      ((parse_results doc).registered_voters ≠ [] ∧ (parse_results doc).envelopes ≠ [] ∧
        (parse_results doc).valid_votes = [])) ∧
    ([] : List String) ≠ [""] := by
  refine ⟨parse_results_registered doc, parse_results_envelopes doc,
    parse_results_valid doc, ?_, by simp⟩
  rw [parse_results_registered, parse_results_envelopes, parse_results_valid]
  simpa only [List.map_eq_nil_iff, ← List.length_eq_zero, List.length_map, ne_eq] using habs

/-- C2 witness: on the page lacking the `sa2` marker, the registered
counter is the empty match list while the envelopes counter carries its
extracted text. -/
theorem parse_results_absent_scalar_witness :
    (parse_results missingRegPage).registered_voters = [] ∧
    (parse_results missingRegPage).envelopes = ["80"] := by
  have h := parse_results_absent_scalar missingRegPage
    (Or.inl ⟨by decide, by decide, by decide⟩)
  exact ⟨h.1.trans (by decide), h.2.1.trans (by decide)⟩

/-- C3: the header is the five fixed columns followed by the deduplicated
union of all category names across the rows, sorted in lexicographic text
order. -/
theorem write_csv_header (rows : List Row) :
    ((write_municipality_csv rows).1).take 5
        = ["id", "location", "registered voters", "envelopes", "valid votes"] ∧
    (((write_municipality_csv rows).1).drop 5).Sorted (· ≤ ·) ∧
    (((write_municipality_csv rows).1).drop 5).Nodup ∧
    (∀ s : String, s ∈ ((write_municipality_csv rows).1).drop 5 ↔
      ∃ r ∈ rows, s ∈ r.party_votes.map Prod.fst) := by
  have hdr : (write_municipality_csv rows).1
      = fixedHeader ++ sortStrings (partyUniverse rows) := rfl
  have hlen : fixedHeader.length = 5 := rfl
  refine ⟨?_, ?_, ?_, ?_⟩
  · rw [hdr, ← hlen, List.take_left]
    rfl
  · rw [hdr, ← hlen, List.drop_left]
    exact sortStrings_sorted (partyUniverse rows)
  · rw [hdr, ← hlen, List.drop_left]
    exact nodup_sortStrings _ (List.nodup_dedup _)
  · intro s
    rw [hdr, ← hlen, List.drop_left, mem_sortStrings]
    unfold partyUniverse
    rw [List.mem_dedup, List.mem_flatMap]

/-- C4: every emitted row has exactly as many entries as the header: the
five scalar fields first, then, for each category column in header order,
that row's count with a missing category defaulting to the empty string. -/
theorem write_csv_row_shape (rows : List Row) :
    (write_municipality_csv rows).2
        = rows.map (fun r => rowValues r (sortStrings (partyUniverse rows))) ∧
    (∀ vs ∈ (write_municipality_csv rows).2,
      vs.length = (write_municipality_csv rows).1.length) ∧
    (∀ r ∈ rows, (rowValues r (sortStrings (partyUniverse rows))).take 5
        = [r.id, r.location, r.registered, r.envelopes, r.valid]) ∧
    (∀ r ∈ rows, ∀ j name, (sortStrings (partyUniverse rows))[j]? = some name →
      (rowValues r (sortStrings (partyUniverse rows)))[5 + j]?
        = some (dictGetD r.party_votes name "")) := by
  refine ⟨rfl, ?_, ?_, ?_⟩
  · intro vs hvs
    have : vs ∈ rows.map (fun r => rowValues r (sortStrings (partyUniverse rows))) := hvs
    rcases List.mem_map.mp this with ⟨r, _, hr⟩
    subst hr
    show (rowValues r (sortStrings (partyUniverse rows))).length
        = (fixedHeader ++ sortStrings (partyUniverse rows)).length
    unfold rowValues fixedHeader
    simp
  · intro r _
    have h5 : ([r.id, r.location, r.registered, r.envelopes, r.valid] : List String).length
        = 5 := rfl
    unfold rowValues
    rw [← h5, List.take_left]
  · intro r _ j name hj
    obtain ⟨hjlt, hjEq⟩ := List.getElem?_eq_some.mp hj
    unfold rowValues
    rw [List.getElem?_append_right (by simp)]
    have h5 : ([r.id, r.location, r.registered, r.envelopes, r.valid] : List String).length
        = 5 := rfl
    rw [h5, Nat.add_sub_cancel_left, List.getElem?_map,
      List.getElem?_eq_getElem hjlt, Option.map_some', hjEq]

/-- Rows used by the table-builder witnesses: the first location carries
categories A and C, the second carries B and C. -/
def rowAlpha : Row :=
  { id := "500011", location := "Alpha", registered := "100", envelopes := "80",
    valid := "75", party_votes := [("A", "40"), ("C", "35")] }

/-- Second witness row, with categories B and C. -/
def rowBeta : Row :=
  { id := "500012", location := "Beta", registered := "200", envelopes := "150",
    valid := "140", party_votes := [("B", "90"), ("C", "50")] }

/-- C4 witness: in the table over the two witness rows the category
columns are A, B, C; the first row's entry for column B (position 5 + 1)
is the empty string, since Alpha lacks category B. -/
theorem write_csv_row_shape_witness :
    (rowValues rowAlpha (sortStrings (partyUniverse [rowAlpha, rowBeta])))[5 + 1]?
        = some "" := by
  have h := (write_csv_row_shape [rowAlpha, rowBeta]).2.2.2 rowAlpha
    (List.mem_cons_self rowAlpha [rowBeta]) 1 "B" (by decide)
  rw [h]
  decide

/-- C6: the Table Builder is deterministic: the table it produces does not
depend on the enumeration order of the category-name set (so re-running on
the same rows reproduces the identical header and rows), and
`write_municipality_csv` is that builder applied to the rows' own
category universe. -/
theorem buildTable_deterministic (rows : List Row) (u1 u2 : List String)
    (hperm : u1.Perm u2) :
    buildTableWith rows u1 = buildTableWith rows u2 ∧
    write_municipality_csv rows = buildTableWith rows (partyUniverse rows) := by
  refine ⟨?_, rfl⟩
  unfold buildTableWith
  rw [sortStrings_eq_of_perm u1 u2 hperm]

/-- C6 witness: two enumeration orders of the same two-element category
set give byte-identical tables over the witness rows. -/
theorem buildTable_deterministic_witness :
    buildTableWith [rowAlpha] ["B", "A"] = buildTableWith [rowAlpha] ["A", "B"] :=
  (buildTable_deterministic [rowAlpha] ["B", "A"] ["A", "B"] (by decide)).1

/-- The three aligned sequences returned by `parse_municipalities`, named:
the ids. -/
theorem parse_municipalities_ids (doc : Node) :
    (parse_municipalities doc).1
      = (doc.findAll isCodeCell).flatMap (fun td => (td.findAll isAnchor).map Node.text) := rfl

/-- The names component of `parse_municipalities`. -/
theorem parse_municipalities_names (doc : Node) :
    (parse_municipalities doc).2.1 = (doc.findAll isNameCell).map Node.text := rfl

/-- The hrefs component of `parse_municipalities`. -/
theorem parse_municipalities_hrefs (doc : Node) :
    (parse_municipalities doc).2.2
      = (doc.findAll isCodeCell).flatMap
          (fun td => (td.findAll isAnchor).filterMap Node.hrefAttr) := rfl

/-- C5 counterexample: a page with one code cell (holding no hyperlink)
and one name cell, so N = 1, on which the extractor returns 0 codes and
0 links next to 1 name — not N aligned entries. -/
theorem parse_municipalities_miscounts :
    (brokenIndexPage.findAll isCodeCell).length = 1 ∧
    (brokenIndexPage.findAll isNameCell).length = 1 ∧
    (parse_municipalities brokenIndexPage).1.length = 0 ∧
    (parse_municipalities brokenIndexPage).2.1.length = 1 ∧
    (parse_municipalities brokenIndexPage).2.2.length = 0 := by
  refine ⟨by decide, by decide, by decide, by decide, by decide⟩

/-- C5 (amended): for an index page with N code cells, each containing
exactly one hyperlink bearing an href attribute, and N name cells, the
extractor returns exactly N ids, N names and N links, in document order;
with no matching elements (N = 0) all three sequences are empty, and no
error is raised. -/
theorem parse_municipalities_counts (doc : Node) (N : Nat)
    (hcode : (doc.findAll isCodeCell).length = N)
    (hname : (doc.findAll isNameCell).length = N)
    (hone : ∀ td ∈ doc.findAll isCodeCell,
      (td.findAll isAnchor).length = 1 ∧
      ((td.findAll isAnchor).filterMap Node.hrefAttr).length = 1) :
    (parse_municipalities doc).1.length = N ∧
    (parse_municipalities doc).2.1.length = N ∧
    (parse_municipalities doc).2.2.length = N ∧
    (parse_municipalities doc).2.1 = (doc.findAll isNameCell).map Node.text := by
  refine ⟨?_, ?_, ?_, parse_municipalities_names doc⟩
  · rw [parse_municipalities_ids,
      length_flatMap_of_one _ _ (fun td htd => by
        rw [List.length_map]
        exact (hone td htd).1)]
    exact hcode
  · rw [parse_municipalities_names, List.length_map]
    exact hname
  · rw [parse_municipalities_hrefs,
      length_flatMap_of_one _ _ (fun td htd => (hone td htd).2)]
    exact hcode

/-- C5 witness: on the two-municipality index page the extractor returns
two ids, two names and two links, the names in document order. -/
theorem parse_municipalities_counts_witness :
    (parse_municipalities goodIndexPage).1.length = 2 ∧
    (parse_municipalities goodIndexPage).2.1.length = 2 ∧
    (parse_municipalities goodIndexPage).2.2.length = 2 ∧
    (parse_municipalities goodIndexPage).2.1
        = (goodIndexPage.findAll isNameCell).map Node.text :=
  parse_municipalities_counts goodIndexPage 2 (by decide) (by decide) (by decide)

/-- `run` on a well-formed argument vector, unfolded one step. -/
theorem run_eq_match (s u file : String) (fetch : String → Except String Node) :
    run [s, u, file] fetch
      = match fetch u with
        | .error e =>
          { exitCode := 1
            stdoutLines := ["Error loading " ++ u ++ ": " ++ e]
            stderrLines := []
            written := none }
        | .ok html =>
          match buildRows fetch (zip3 (parse_municipalities html).1
              (parse_municipalities html).2.1 (parse_municipalities html).2.2) with
          | .error e =>
            { exitCode := 1
              stdoutLines := []
              stderrLines := ["Traceback (most recent call last): " ++ e]
              written := none }
          | .ok all_rows =>
            { exitCode := 0
              stdoutLines := ["Saved " ++ file]
              stderrLines := []
              written := some (file, write_municipality_csv all_rows) } := rfl

/-- The outcome of `run` when the index page is served but the
per-municipality loop fails. -/
theorem run_of_rows_error (s u file : String) (fetch : String → Except String Node)
    (doc : Node) (e : String) (hdoc : fetch u = .ok doc)
    (he : buildRows fetch (zip3 (parse_municipalities doc).1 (parse_municipalities doc).2.1
        (parse_municipalities doc).2.2) = .error e) :
    run [s, u, file] fetch
      = { exitCode := 1
          stdoutLines := []
          stderrLines := ["Traceback (most recent call last): " ++ e]
          written := none } := by
  rw [run_eq_match, hdoc]
  split
  · rename_i e' heq
    cases heq
  · rename_i html heq
    cases heq
    split
    · rename_i e' heq2
      rw [he] at heq2
      cases heq2
      rfl
    · rename_i rows heq2
      rw [he] at heq2
      cases heq2

/-- The outcome of `run` when every fetch succeeds. -/
theorem run_of_rows_ok (s u file : String) (fetch : String → Except String Node)
    (doc : Node) (all_rows : List Row) (hdoc : fetch u = .ok doc)
    (hrows : buildRows fetch (zip3 (parse_municipalities doc).1 (parse_municipalities doc).2.1
        (parse_municipalities doc).2.2) = .ok all_rows) :
    run [s, u, file] fetch
      = { exitCode := 0
          stdoutLines := ["Saved " ++ file]
          stderrLines := []
          written := some (file, write_municipality_csv all_rows) } := by
  rw [run_eq_match, hdoc]
  split
  · rename_i e' heq
    cases heq
  · rename_i html heq
    cases heq
    split
    · rename_i e' heq2
      rw [hrows] at heq2
      cases heq2
    · rename_i rows heq2
      rw [hrows] at heq2
      cases heq2
      rfl

/-- C7: if fetching the index page fails, the run reports the error and
exits with status 1, writing nothing; if fetching any municipality page
fails, the run aborts with status 1, a message on the error stream, and
writes nothing. -/
theorem run_aborts_on_fetch_failure (s u file : String)
    (fetch : String → Except String Node) :
    (∀ e, fetch u = .error e →
      run [s, u, file] fetch
        = { exitCode := 1
            stdoutLines := ["Error loading " ++ u ++ ": " ++ e]
            stderrLines := []
            written := none }) ∧
    (∀ doc, fetch u = .ok doc →
      (∃ t ∈ zip3 (parse_municipalities doc).1 (parse_municipalities doc).2.1
          (parse_municipalities doc).2.2, ∃ e, fetch (create_link t.2.2) = .error e) →
      (run [s, u, file] fetch).exitCode = 1 ∧
      (run [s, u, file] fetch).written = none ∧
      (run [s, u, file] fetch).stderrLines ≠ []) := by
  constructor
  · intro e he
    rw [run_eq_match, he]
  · intro doc hdoc hex
    obtain ⟨e, he⟩ := buildRows_error fetch _ hex
    have hrun := run_of_rows_error s u file fetch doc e hdoc he
    refine ⟨?_, ?_, ?_⟩ <;> rw [hrun] <;> simp

/-- C7 witness: with a fetcher that refuses every URL the run reports the
index failure and writes nothing; with a fetcher that serves the index
page but fails on each municipality page, the run exits 1, writes
nothing, and prints to the error stream. -/
theorem run_aborts_on_fetch_failure_witness :
    run ["script.py", "http://idx", "out.csv"] fetchFail
        = { exitCode := 1
            stdoutLines := ["Error loading http://idx: connection refused"]
            stderrLines := []
            written := none } ∧
    ((run ["script.py", "http://idx", "out.csv"] locFailFetch).exitCode = 1 ∧
      (run ["script.py", "http://idx", "out.csv"] locFailFetch).written = none ∧
      (run ["script.py", "http://idx", "out.csv"] locFailFetch).stderrLines ≠ []) :=
  ⟨(run_aborts_on_fetch_failure "script.py" "http://idx" "out.csv" fetchFail).1
      "connection refused" rfl,
   (run_aborts_on_fetch_failure "script.py" "http://idx" "out.csv" locFailFetch).2
      goodIndexPage rfl ⟨("500011", "Alpha", "ps311?x=1"), by decide, "down", rfl⟩⟩

/-- C8 counterexample: on a wrong argument count the usage message goes to
standard output and the error stream stays empty, contradicting the claim
that failure messages are printed to the error stream. -/
theorem run_usage_not_on_stderr :
    (run ["script.py"] fetchFail).exitCode = 1 ∧
    (run ["script.py"] fetchFail).stdoutLines = [usageMsg] ∧
    (run ["script.py"] fetchFail).stderrLines = [] :=
  ⟨rfl, rfl, rfl⟩

/-- C8 (amended): any argument count other than two arguments prints the
usage message (to standard output), performs no further processing (the
fetcher is never consulted) and exits with status 1; on success the
program prints the confirmation with the output path (to standard output)
and exits with status 0; an index fetch failure is likewise reported on
standard output, not the error stream, with exit status 1. -/
theorem run_cli_contract (argv : List String) (fetch : String → Except String Node) :
    (argv.length ≠ 3 →
      run argv fetch
          = { exitCode := 1
              stdoutLines := [usageMsg]
              stderrLines := []
              written := none } ∧
      ∀ fetch2, run argv fetch = run argv fetch2) ∧
    (∀ s u file doc all_rows, argv = [s, u, file] → fetch u = .ok doc →
      buildRows fetch (zip3 (parse_municipalities doc).1 (parse_municipalities doc).2.1
          (parse_municipalities doc).2.2) = .ok all_rows →
      run argv fetch
        = { exitCode := 0
            stdoutLines := ["Saved " ++ file]
            stderrLines := []
            written := some (file, write_municipality_csv all_rows) }) ∧
    (∀ s u file e, argv = [s, u, file] → fetch u = .error e →
      run argv fetch
        = { exitCode := 1
            stdoutLines := ["Error loading " ++ u ++ ": " ++ e]
            stderrLines := []
            written := none }) := by
  refine ⟨?_, ?_, ?_⟩
  · intro hlen
    rcases argv with _ | ⟨a, _ | ⟨b, _ | ⟨c, _ | ⟨d, rest⟩⟩⟩⟩
    · exact ⟨rfl, fun _ => rfl⟩
    · exact ⟨rfl, fun _ => rfl⟩
    · exact ⟨rfl, fun _ => rfl⟩
    · exact absurd rfl hlen
    · exact ⟨rfl, fun _ => rfl⟩
  · rintro s u file doc all_rows rfl hdoc hrows
    exact run_of_rows_ok s u file fetch doc all_rows hdoc hrows
  · rintro s u file e rfl he
    rw [run_eq_match, he]

/-- C8 witness: the three branches at concrete inputs — wrong argument
count, a successful run over an index page with no municipalities, and an
index fetch failure. -/
theorem run_cli_contract_witness :
    run ["script.py"] fetchFail
        = { exitCode := 1
            stdoutLines := [usageMsg]
            stderrLines := []
            written := none } ∧
    run ["script.py", "http://idx", "out.csv"] emptyFetch
        = { exitCode := 0
            stdoutLines := ["Saved out.csv"]
            stderrLines := []
            written := some ("out.csv", write_municipality_csv []) } ∧
    run ["script.py", "http://idx", "out.csv"] fetchFail
        = { exitCode := 1
            stdoutLines := ["Error loading http://idx: connection refused"]
            stderrLines := []
            written := none } :=
  ⟨((run_cli_contract ["script.py"] fetchFail).1 (by decide)).1,
   (run_cli_contract ["script.py", "http://idx", "out.csv"] emptyFetch).2.1
      "script.py" "http://idx" "out.csv" (.elem "html" [] []) [] rfl rfl rfl,
   (run_cli_contract ["script.py", "http://idx", "out.csv"] fetchFail).2.2
      "script.py" "http://idx" "out.csv" "connection refused" rfl rfl⟩

end ElectionScraper
